import Mathlib

/-!
Verification of the Dialectic context-to-agent decision engine.

This file gives a shallow embedding, in Lean 4, of the core components of the
repository: the context analyzer (`src/agents/context_analyzer.py`), the
template-driven agent generator (`src/agents/agent_generator.py`), the
AI-backed generator with its keyword fallback
(`src/agents/dynamic_agent_generator.py`), and the learning engine
(`src/agents/learning_engine.py`).  Python floats are modelled as rationals
(`ℚ`); Python dicts holding mutable state are modelled as insertion-ordered
association lists; substring tests (`kw in text`, and the source's `.*word.*`
regexes, which match exactly when `word` occurs as a substring) are modelled
by an executable infix test on character lists.
-/

namespace Dialectic

/-! ## String helpers -/

/-- `substrAt p cs` is true when the character list `p` occurs as a prefix of
some suffix of `cs`, i.e. `p` is an infix of `cs`.  This models both Python's
`pat in text` substring test and `re.search(".*pat.*", text)`. -/
def substrAt (p : List Char) : List Char → Bool
  | [] => p.isEmpty
  | c :: rest => p.isPrefixOf (c :: rest) || substrAt p rest

/-- Python `pat in text` (substring containment). -/
def containsSub (text pat : String) : Bool :=
  substrAt pat.data text.data

/-- Python `s.lower()` (ASCII case folding, which covers every keyword and
path the analyzer compares; implemented structurally so the kernel can
evaluate it). -/
def strToLower (s : String) : String :=
  String.mk (s.data.map Char.toLower)

/-- Split a character list at every separator satisfying `p` (Python
`str.split(sep)` semantics: `n` separators yield `n+1` pieces, empties
kept). -/
def splitCharsAt (p : Char → Bool) : List Char → List (List Char)
  | [] => [[]]
  | c :: rest =>
    let r := splitCharsAt p rest
    if p c then [] :: r
    else
      match r with
      | [] => [[c]]
      | h :: t => (c :: h) :: t

/-- Python `s.split(sep)` for a one-character separator. -/
def splitStrAt (p : Char → Bool) (s : String) : List String :=
  (splitCharsAt p s.data).map String.mk

/-- Python `s.endswith(suf)`. -/
def endsWith (s suf : String) : Bool :=
  suf.data.reverse.isPrefixOf s.data.reverse

/-- Python `s.endswith((suf₁, suf₂, ...))`. -/
def endsWithAny (s : String) (sufs : List String) : Bool :=
  sufs.any (fun suf => endsWith s suf)

/-- Python `' '.join(files)`. -/
def joinSpace (files : List String) : String :=
  String.intercalate " " files

/-- Python `str(b)` for a boolean. -/
def pyBool : Bool → String
  | true => "True"
  | false => "False"

/-- Python `str(files)` for a list of strings: `['a', 'b']`.  (The `repr`
escaping of exotic characters inside file names is not modelled; paths are
rendered verbatim between quote characters.) -/
def pyStrList (files : List String) : String :=
  "[" ++ String.intercalate ", " (files.map (fun f => "\x27" ++ f ++ "\x27")) ++ "]"

/-- Python `message.split()`: whitespace-separated words, empties dropped. -/
def pyWords (s : String) : List String :=
  (splitStrAt Char.isWhitespace s).filter (fun w => w ≠ "")

/-- Abstraction of Python's `"{:.1%}".format(q)` rendering used only inside
human-readable `context_reason` strings (its exact decimal digits matter to
no verified property). -/
def pctString (q : ℚ) : String :=
  toString (q * 100) ++ "%"

/-! ## Data model (`src/agents/models.py`, `agent_generator.py`) -/

/-- One error record of an incoming event. -/
structure ErrorRec where
  kind : String
  count : Nat
deriving DecidableEq

/-- An incoming development event: changed files, free-text message, errors. -/
structure Event where
  files : List String
  message : String
  errors : List ErrorRec
deriving DecidableEq

/-- The fixed file-type histogram produced by
`ContextAnalyzer._analyze_file_types`. -/
structure FileTypes where
  python : Nat
  javascript : Nat
  typescript : Nat
  html : Nat
  css : Nat
  markdown : Nat
  config : Nat
  other : Nat
deriving DecidableEq

/-- The three focus confidence scores. -/
structure ConfidenceScores where
  security : ℚ
  mvp : ℚ
  performance : ℚ
deriving DecidableEq

/-- Output of `ContextAnalyzer.analyze_event`. -/
structure ContextAnalysis where
  security_focus : Bool
  mvp_focus : Bool
  performance_focus : Bool
  documentation_focus : Bool
  error_focus : Bool
  files_changed : List String
  commit_message : String
  error_count : Nat
  file_types : FileTypes
  complexity_score : ℤ
  confidence : ConfidenceScores
deriving DecidableEq

/-- An agent specification (`AgentSpec` dataclass / pydantic model). -/
structure AgentSpec where
  agent_id : String
  agent_type : String
  focus_area : String
  documentation_targets : List String
  priority : Nat
  confidence : ℚ
  created_at : String
  context_reason : String
  estimated_duration : String
  tags : List String
  dependencies : List String
deriving DecidableEq

/-! ## ContextAnalyzer (`src/agents/context_analyzer.py`) -/

def security_keywords : List String :=
  ["auth", "password", "token", "security", "encrypt", "decrypt",
   "permission", "login", "session", "jwt", "oauth", "ssl", "tls",
   "cors", "csrf", "xss", "sql", "injection", "hash", "salt",
   "private", "secret", "key", "certificate", "signature"]

def mvp_keywords : List String :=
  ["mvp", "prototype", "quick", "rapid", "hackathon", "demo",
   "poc", "proof of concept", "minimal", "basic", "simple",
   "temporary", "placeholder", "mock", "stub"]

def performance_keywords : List String :=
  ["optimize", "performance", "speed", "cache", "async", "await",
   "slow", "latency", "bottleneck", "efficiency", "memory",
   "cpu", "load", "scale", "concurrent", "parallel", "thread",
   "queue", "buffer", "pool", "connection"]

def documentation_keywords : List String :=
  ["readme", "docs", "documentation", "guide", "tutorial",
   "api", "spec", "schema", "comment", "explain", "describe"]

/-- `file_patterns['security']`: each regex `.*w.*` matches iff `w` is a
substring, so patterns are kept as their core words. -/
def security_file_patterns : List String :=
  ["auth", "security", "login", "jwt", "middleware", "guard", "permission"]

/-- `file_patterns['performance']`. -/
def performance_file_patterns : List String :=
  ["optimize", "cache", "async", "queue", "pool", "connection", "database"]

/-- `ContextAnalyzer._check_security_context`. -/
def check_security_context (files : List String) (message : String) : Bool :=
  let filesText := strToLower (joinSpace files)
  security_file_patterns.any (fun p => containsSub filesText p)
  || (let textToCheck := filesText ++ " " ++ strToLower message
      security_keywords.any (fun k => containsSub textToCheck k))

/-- `ContextAnalyzer._check_mvp_context`. -/
def check_mvp_context (message : String) : Bool :=
  mvp_keywords.any (fun k => containsSub (strToLower message) k)

/-- `ContextAnalyzer._check_performance_context`. -/
def check_performance_context (files : List String) (message : String) : Bool :=
  let filesText := strToLower (joinSpace files)
  performance_file_patterns.any (fun p => containsSub filesText p)
  || (let textToCheck := filesText ++ " " ++ strToLower message
      performance_keywords.any (fun k => containsSub textToCheck k))

/-- `ContextAnalyzer._check_documentation_context`. -/
def check_documentation_context (files : List String) (message : String) : Bool :=
  let filesText := strToLower (joinSpace files)
  files.any (fun f => endsWithAny f [".md", ".rst", ".txt", ".doc", ".docx"])
  || (let textToCheck := filesText ++ " " ++ strToLower message
      documentation_keywords.any (fun k => containsSub textToCheck k))

/-- One step of the `_analyze_file_types` classification loop (the
`if/elif` suffix chain; first matching rule wins, unmatched paths count as
`other`). -/
def classify_file (ft : FileTypes) (path : String) : FileTypes :=
  let fileLower := strToLower path
  if endsWithAny fileLower [".py", ".pyi"] then { ft with python := ft.python + 1 }
  else if endsWithAny fileLower [".js", ".jsx"] then { ft with javascript := ft.javascript + 1 }
  else if endsWithAny fileLower [".ts", ".tsx"] then { ft with typescript := ft.typescript + 1 }
  else if endsWithAny fileLower [".html", ".htm"] then { ft with html := ft.html + 1 }
  else if endsWithAny fileLower [".css", ".scss", ".sass"] then { ft with css := ft.css + 1 }
  else if endsWithAny fileLower [".md", ".rst", ".txt"] then { ft with markdown := ft.markdown + 1 }
  else if endsWithAny fileLower [".json", ".yaml", ".yml", ".toml", ".ini", ".cfg"] then
    { ft with config := ft.config + 1 }
  else { ft with other := ft.other + 1 }

/-- `ContextAnalyzer._analyze_file_types`. -/
def analyze_file_types (files : List String) : FileTypes :=
  files.foldl classify_file ⟨0, 0, 0, 0, 0, 0, 0, 0⟩

/-- Sum of all eight counters of the histogram. -/
def FileTypes.total (ft : FileTypes) : Nat :=
  ft.python + ft.javascript + ft.typescript + ft.html + ft.css
    + ft.markdown + ft.config + ft.other

/-- Number of categories with a non-zero count (`unique_types`). -/
def FileTypes.uniqueCount (ft : FileTypes) : Nat :=
  (if ft.python > 0 then 1 else 0) + (if ft.javascript > 0 then 1 else 0)
  + (if ft.typescript > 0 then 1 else 0) + (if ft.html > 0 then 1 else 0)
  + (if ft.css > 0 then 1 else 0) + (if ft.markdown > 0 then 1 else 0)
  + (if ft.config > 0 then 1 else 0) + (if ft.other > 0 then 1 else 0)

/-- `ContextAnalyzer._calculate_complexity` (`int(score)` truncates; the
score is a sum of non-negative terms, so truncation is `⌊·⌋`). -/
def calculate_complexity (files : List String) (message : String) : ℤ :=
  Rat.floor (((files.length : ℚ) * 2)
    + ((pyWords message).length : ℚ) * (1/2)
    + ((analyze_file_types files).uniqueCount : ℚ) * 3
    + (if check_security_context files message then 5 else 0)
    + (if check_performance_context files message then 3 else 0))

/-- `ContextAnalyzer._calculate_security_confidence`. -/
def calculate_security_confidence (files : List String) (message : String) : ℚ :=
  let filesText := strToLower (joinSpace files)
  let patternHits := (security_file_patterns.filter (fun p => containsSub filesText p)).length
  let textToCheck := filesText ++ " " ++ strToLower message
  let keywordMatches := (security_keywords.filter (fun k => containsSub textToCheck k)).length
  min ((patternHits : ℚ) * (2/5) + min ((keywordMatches : ℚ) * (1/10)) (3/5)) 1

/-- `ContextAnalyzer._calculate_mvp_confidence`. -/
def calculate_mvp_confidence (message : String) : ℚ :=
  let keywordMatches := (mvp_keywords.filter (fun k => containsSub (strToLower message) k)).length
  min ((keywordMatches : ℚ) * (3/10)) 1

/-- `ContextAnalyzer._calculate_performance_confidence`. -/
def calculate_performance_confidence (files : List String) (message : String) : ℚ :=
  let filesText := strToLower (joinSpace files)
  let patternHits := (performance_file_patterns.filter (fun p => containsSub filesText p)).length
  let textToCheck := filesText ++ " " ++ strToLower message
  let keywordMatches := (performance_keywords.filter (fun k => containsSub textToCheck k)).length
  min ((patternHits : ℚ) * (2/5) + min ((keywordMatches : ℚ) * (1/10)) (3/5)) 1

/-- `ContextAnalyzer.analyze_event`. -/
def analyze_event (ev : Event) : ContextAnalysis :=
  { security_focus := check_security_context ev.files ev.message
    mvp_focus := check_mvp_context ev.message
    performance_focus := check_performance_context ev.files ev.message
    documentation_focus := check_documentation_context ev.files ev.message
    error_focus := decide (ev.errors.length > 0)
    files_changed := ev.files
    commit_message := ev.message
    error_count := ev.errors.length
    file_types := analyze_file_types ev.files
    complexity_score := calculate_complexity ev.files ev.message
    confidence :=
      { security := calculate_security_confidence ev.files ev.message
        mvp := calculate_mvp_confidence ev.message
        performance := calculate_performance_confidence ev.files ev.message } }

/-! ## Template-driven generator (`src/agents/agent_generator.py`) -/

/-- `agent_templates[t]['base_priority']`. -/
def template_priority (t : String) : Nat :=
  if t = "security_specialist" then 1
  else if t = "mvp_strategist" then 2
  else if t = "performance_expert" then 2
  else if t = "documentation_specialist" then 3
  else if t = "error_handler" then 1
  else if t = "api_specialist" then 2
  else if t = "frontend_specialist" then 2
  else 0

/-- `agent_templates[t]['focus_area']`. -/
def template_focus_area (t : String) : String :=
  if t = "security_specialist" then "security"
  else if t = "mvp_strategist" then "mvp"
  else if t = "performance_expert" then "performance"
  else if t = "documentation_specialist" then "documentation"
  else if t = "error_handler" then "debugging"
  else if t = "api_specialist" then "api"
  else if t = "frontend_specialist" then "frontend"
  else ""

/-- `agent_templates[t]['documentation_targets']`. -/
def template_targets (t : String) : List String :=
  if t = "security_specialist" then
    [".cursor/rules/security_rules.md", ".cursor/commands/security_commands.md",
     ".cursor/development/patterns/auth_patterns.md",
     ".cursor/development/debugging/security_debugging.md"]
  else if t = "mvp_strategist" then
    [".cursor/rules/mvp_guidelines.md", ".cursor/commands/rapid_prototyping.md",
     ".cursor/development/patterns/mvp_patterns.md", ".cursor/plans/mvp_tracking.md"]
  else if t = "performance_expert" then
    [".cursor/rules/performance_rules.md", ".cursor/commands/optimization_commands.md",
     ".cursor/development/patterns/performance_patterns.md",
     ".cursor/development/debugging/performance_debugging.md"]
  else if t = "documentation_specialist" then
    [".cursor/README.md", ".cursor/development/debugging/", ".cursor/plans/",
     ".cursor/commands/"]
  else if t = "error_handler" then
    [".cursor/development/debugging/", ".cursor/commands/debugging_commands.md",
     ".cursor/rules/error_handling_rules.md"]
  else if t = "api_specialist" then
    [".cursor/rules/api_rules.md", ".cursor/commands/api_commands.md",
     ".cursor/development/patterns/api_patterns.md"]
  else if t = "frontend_specialist" then
    [".cursor/rules/frontend_rules.md", ".cursor/commands/frontend_commands.md",
     ".cursor/development/patterns/ui_patterns.md"]
  else []

/-- `agent_templates[t]['tags']`. -/
def template_tags (t : String) : List String :=
  if t = "security_specialist" then ["security", "auth", "permissions"]
  else if t = "mvp_strategist" then ["mvp", "prototype", "rapid"]
  else if t = "performance_expert" then ["performance", "optimization", "caching"]
  else if t = "documentation_specialist" then ["documentation", "docs", "guides"]
  else if t = "error_handler" then ["debugging", "errors", "fixes"]
  else if t = "api_specialist" then ["api", "endpoints", "rest"]
  else if t = "frontend_specialist" then ["frontend", "ui", "components"]
  else []

/-- `agent_templates[t]['estimated_duration']`. -/
def template_duration (t : String) : String :=
  if t = "security_specialist" then "15-30 min"
  else if t = "mvp_strategist" then "10-20 min"
  else if t = "performance_expert" then "20-40 min"
  else if t = "documentation_specialist" then "5-15 min"
  else if t = "error_handler" then "10-25 min"
  else if t = "api_specialist" then "15-30 min"
  else if t = "frontend_specialist" then "15-25 min"
  else ""

/-- `DynamicAgentGenerator._calculate_agent_confidence`. -/
def calculate_agent_confidence (t : String) (ctx : ContextAnalysis) : ℚ :=
  if t = "security_specialist" then ctx.confidence.security
  else if t = "mvp_strategist" then ctx.confidence.mvp
  else if t = "performance_expert" then ctx.confidence.performance
  else if t = "documentation_specialist" then (if ctx.documentation_focus then 1 else 0)
  else if t = "error_handler" then min ((ctx.error_count : ℚ) * (1/5)) 1
  else if t = "api_specialist" then min ((ctx.file_types.python : ℚ) * (1/10)) 1
  else if t = "frontend_specialist" then
    min (((ctx.file_types.javascript + ctx.file_types.typescript : ℕ) : ℚ) * (1/5)) 1
  else 1/2

/-- `DynamicAgentGenerator._determine_dependencies`. -/
def determine_dependencies (t : String) (ctx : ContextAnalysis) : List String :=
  (if t = "security_specialist" then ["documentation_specialist"] else [])
  ++ (if t = "performance_expert" then ["error_handler"] else [])
  ++ (if t = "api_specialist" then
        (if ctx.security_focus then ["security_specialist"] else [])
        ++ (if ctx.performance_focus then ["performance_expert"] else [])
      else [])

/-- `DynamicAgentGenerator._create_agent`.  Unique-id generation
(`uuid.uuid4().hex[:8]`) is modelled by an injected suffix string. -/
def create_agent (t : String) (ctx : ContextAnalysis) (timestamp suffix reason : String) :
    AgentSpec :=
  { agent_id := t ++ "_" ++ suffix
    agent_type := t
    focus_area := template_focus_area t
    documentation_targets := template_targets t
    priority := template_priority t
    confidence := calculate_agent_confidence t ctx
    created_at := timestamp
    context_reason := reason
    estimated_duration := template_duration t
    tags := template_tags t
    dependencies := determine_dependencies t ctx }

/-- The count of frontend files used by the frontend spawn rule. -/
def frontend_file_count (ctx : ContextAnalysis) : Nat :=
  ctx.file_types.javascript + ctx.file_types.typescript
    + ctx.file_types.html + ctx.file_types.css

/-- The `(agent_type, context_reason)` pairs appended by the body of
`DynamicAgentGenerator.generate_agents`, in generation order, before the
final sort. -/
def raw_agent_choices (ctx : ContextAnalysis) : List (String × String) :=
  (if ctx.security_focus && decide (ctx.confidence.security > 3/10) then
     [("security_specialist",
       "Security focus detected (confidence: " ++ pctString ctx.confidence.security ++ ")")]
   else [])
  ++ (if ctx.mvp_focus && decide (ctx.confidence.mvp > 1/5) then
       [("mvp_strategist",
         "MVP/prototype work detected (confidence: " ++ pctString ctx.confidence.mvp ++ ")")]
      else [])
  ++ (if ctx.performance_focus && decide (ctx.confidence.performance > 3/10) then
       [("performance_expert",
         "Performance optimization detected (confidence: "
           ++ pctString ctx.confidence.performance ++ ")")]
      else [])
  ++ (if ctx.documentation_focus then
       [("documentation_specialist", "Documentation files modified")] else [])
  ++ (if ctx.error_focus then
       [("error_handler",
         "Errors detected (" ++ toString ctx.error_count ++ " errors)")]
      else [])
  ++ (if decide (ctx.file_types.python > 0)
        && containsSub (strToLower (joinSpace ctx.files_changed)) "api" then
       [("api_specialist", "API-related Python files detected")] else [])
  ++ (if decide (frontend_file_count ctx > 0) then
       [("frontend_specialist",
         "Frontend files detected (" ++ toString (frontend_file_count ctx) ++ " files)")]
      else [])

/-- The unsorted agent list of `generate_agents`, ids injected by position. -/
def raw_agents (ctx : ContextAnalysis) (timestamp : String) (ids : Nat → String) :
    List AgentSpec :=
  (raw_agent_choices ctx).enum.map
    (fun p => create_agent p.2.1 ctx timestamp (ids p.1) p.2.2)

/-- The sort key of `agents.sort(key=lambda x: (x.priority, -x.confidence))`:
ascending priority, then descending confidence. -/
def specLE (a b : AgentSpec) : Prop :=
  a.priority < b.priority ∨ (a.priority = b.priority ∧ b.confidence ≤ a.confidence)

instance : DecidableRel specLE := fun a b => by
  unfold specLE; infer_instance

instance : IsTotal AgentSpec specLE where
  total a b := by
    unfold specLE
    rcases Nat.lt_trichotomy a.priority b.priority with h | h | h
    · exact Or.inl (Or.inl h)
    · rcases le_total b.confidence a.confidence with hc | hc
      · exact Or.inl (Or.inr ⟨h, hc⟩)
      · exact Or.inr (Or.inr ⟨h.symm, hc⟩)
    · exact Or.inr (Or.inl h)

instance : IsTrans AgentSpec specLE where
  trans a b c hab hbc := by
    unfold specLE at *
    rcases hab with h1 | ⟨h1, c1⟩ <;> rcases hbc with h2 | ⟨h2, c2⟩
    · exact Or.inl (h1.trans h2)
    · exact Or.inl (h2 ▸ h1)
    · exact Or.inl (h1 ▸ h2)
    · exact Or.inr ⟨h1.trans h2, c2.trans c1⟩

/-- `DynamicAgentGenerator.generate_agents`: build the raw list, then apply
Python's stable sort on `(priority, -confidence)`.  (Python's Timsort is
stable; stable sorts under a total preorder have a unique result, realized
here by `List.insertionSort`.) -/
def generate_agents (ctx : ContextAnalysis) (timestamp : String) (ids : Nat → String) :
    List AgentSpec :=
  (raw_agents ctx timestamp ids).insertionSort specLE

/-! ## AI generator with fallback (`src/agents/dynamic_agent_generator.py`) -/

/-- The outcome of the external call of `AIAgentGenerator._generate_with_ai`,
after `llm.generate`, `json.loads` and required-field extraction: either an
exception was raised somewhere in that chain (communication failure, JSON
parse error, missing required field), or a list of parsed agent records was
obtained. -/
inductive AIResult where
  | failure (msg : String)
  | parsed (agents : List AgentSpec)
deriving DecidableEq

/-- `AIAgentGenerator._generate_fallback`: keyword-based generation gated
only on the three focus flags, with the fallback's own fixed targets, tags
and empty dependency lists, sorted like the template generator. -/
def generate_fallback (ctx : ContextAnalysis) (timestamp : String) (ids : Nat → String) :
    List AgentSpec :=
  let raw :=
    (if ctx.security_focus then
       [{ agent_id := "security_specialist_" ++ ids 0
          agent_type := "security_specialist"
          focus_area := "security"
          documentation_targets :=
            [".cursor/rules/security_rules.md", ".cursor/commands/security_commands.md",
             ".cursor/development/patterns/auth_patterns.md"]
          priority := 1
          confidence := ctx.confidence.security
          created_at := timestamp
          context_reason := "Security focus detected (confidence: "
            ++ pctString ctx.confidence.security ++ ")"
          estimated_duration := "15-30 min"
          tags := ["security", "auth"]
          dependencies := [] : AgentSpec }]
     else [])
    ++ (if ctx.mvp_focus then
         [{ agent_id := "mvp_strategist_" ++ ids 1
            agent_type := "mvp_strategist"
            focus_area := "mvp"
            documentation_targets :=
              [".cursor/rules/mvp_guidelines.md", ".cursor/commands/rapid_prototyping.md"]
            priority := 2
            confidence := ctx.confidence.mvp
            created_at := timestamp
            context_reason := "MVP work detected (confidence: "
              ++ pctString ctx.confidence.mvp ++ ")"
            estimated_duration := "10-20 min"
            tags := ["mvp", "prototype"]
            dependencies := [] : AgentSpec }]
        else [])
    ++ (if ctx.performance_focus then
         [{ agent_id := "performance_expert_" ++ ids 2
            agent_type := "performance_expert"
            focus_area := "performance"
            documentation_targets :=
              [".cursor/rules/performance_rules.md", ".cursor/commands/optimization_commands.md"]
            priority := 2
            confidence := ctx.confidence.performance
            created_at := timestamp
            context_reason := "Performance optimization detected (confidence: "
              ++ pctString ctx.confidence.performance ++ ")"
            estimated_duration := "20-40 min"
            tags := ["performance", "optimization"]
            dependencies := [] : AgentSpec }]
        else [])
  raw.insertionSort specLE

/-- `AIAgentGenerator._generate_with_ai`: on success the parsed records are
sorted and returned; on any exception the `except` clause returns the
fallback generation for the same context and surfaces no error. -/
def generate_with_ai (ctx : ContextAnalysis) (res : AIResult) (timestamp : String)
    (ids : Nat → String) : List AgentSpec :=
  match res with
  | .parsed agents => agents.insertionSort specLE
  | .failure _ => generate_fallback ctx timestamp ids

/-! ## Learning engine (`src/agents/learning_engine.py`)

Python dicts are modelled as insertion-ordered association lists: an update
of an existing key rewrites it in place, a new key is appended at the end
(Python 3.7+ dict semantics, which also fixes the tie order of
`sorted(..., reverse=True)` over `dict.items()`). -/

/-- Association-list lookup (first match, like a dict). -/
def alistGet {α : Type} (l : List (String × α)) (k : String) : Option α :=
  (l.find? (fun p => p.1 = k)).map (fun p => p.2)

/-- Association-list store: rewrite an existing key in place, else append. -/
def alistSet {α : Type} : List (String × α) → String → α → List (String × α)
  | [], k, v => [(k, v)]
  | (k', v') :: rest, k, v =>
      if k' = k then (k, v) :: rest else (k', v') :: alistSet rest k v

/-- One per-agent-type effectiveness record. -/
structure AgentEff where
  total_spawned : Nat
  successful_updates : Nat
  average_confidence : ℚ
  last_used : Option String
deriving DecidableEq

/-- The defaultdict default for a fresh agent type. -/
def defaultEff : AgentEff := ⟨0, 0, 0, none⟩

/-- The global success-metrics record. -/
structure SuccessMetrics where
  total_events : Nat
  successful_updates : Nat
  failed_updates : Nat
  total_patterns : Nat
deriving DecidableEq

/-- One documentation-update record as consumed by `learn_from_event`
(`u.get('agent')` is `none` when the key is absent). -/
structure UpdateRec where
  agent : Option String
deriving DecidableEq

/-- One entry of the bounded learning log. -/
structure LogEntry where
  timestamp : String
  pattern_key : String
  agents_spawned : List String
  outcome : String
  updates_count : Nat
  summary_files : List String
  summary_message : String
  summary_error_count : Nat
deriving DecidableEq

/-- The four persisted learning structures held by a `LearningEngine`. -/
structure LearningStore where
  patterns : List (String × Nat)
  success_metrics : SuccessMetrics
  agent_effectiveness : List (String × AgentEff)
  learning_log : List LogEntry
deriving DecidableEq

/-- A freshly constructed engine with no prior persisted state. -/
def initStore : LearningStore :=
  { patterns := []
    success_metrics := ⟨0, 0, 0, 0⟩
    agent_effectiveness := []
    learning_log := [] }

/-- Pattern occurrence count, `self.patterns.get(k, 0)`. -/
def patternCount (st : LearningStore) (k : String) : Nat :=
  (alistGet st.patterns k).getD 0

/-- Effectiveness record for an agent type (defaultdict read). -/
def effOf (st : LearningStore) (t : String) : AgentEff :=
  (alistGet st.agent_effectiveness t).getD defaultEff

/-- `LearningEngine._extract_pattern_key`: the `py`/`js`/`web` codes present
among the changed files. -/
def patternFileCodes (files : List String) : List String :=
  files.filterMap (fun f =>
    if endsWith f ".py" then some "py"
    else if endsWithAny f [".js", ".ts", ".jsx", ".tsx"] then some "js"
    else if endsWithAny f [".html", ".css"] then some "web"
    else none)

/-- `'_'.join(sorted(set(file_types)))` — the codes range over
`{"js", "py", "web"}`, which is their lexicographic order. -/
def patternFileTypeKey (files : List String) : String :=
  let codes := patternFileCodes files
  if codes = [] then "other"
  else String.intercalate "_"
    ((if codes.contains "js" then ["js"] else [])
      ++ (if codes.contains "py" then ["py"] else [])
      ++ (if codes.contains "web" then ["web"] else []))

/-- `LearningEngine._extract_pattern_key`. -/
def extract_pattern_key (ev : Event) : String :=
  let filesRepr := strToLower (pyStrList ev.files)
  let messageLower := strToLower ev.message
  let hasSecurity := ["auth", "security", "token", "jwt"].any
    (fun kw => containsSub (filesRepr ++ messageLower) kw)
  let hasMvp := ["mvp", "prototype", "hackathon", "quick"].any
    (fun kw => containsSub messageLower kw)
  let hasPerformance := ["optimize", "performance", "cache", "async"].any
    (fun kw => containsSub (filesRepr ++ messageLower) kw)
  let hasErrors := decide (ev.errors.length > 0)
  let hasDocs := ev.files.any (fun f => endsWithAny f [".md", ".rst", ".txt"])
  "sec:" ++ pyBool hasSecurity ++ "|mvp:" ++ pyBool hasMvp
    ++ "|perf:" ++ pyBool hasPerformance ++ "|err:" ++ pyBool hasErrors
    ++ "|doc:" ++ pyBool hasDocs ++ "|type:" ++ patternFileTypeKey ev.files

/-- The per-spec step of the effectiveness-update loop in
`learn_from_event`: increment `total_spawned`, stamp `last_used`, apply the
incremental-mean formula with the post-increment count, and add the number
of matching update records. -/
def updateEffForSpec (eff : List (String × AgentEff)) (spec : AgentSpec)
    (updates : List UpdateRec) (timestamp : String) : List (String × AgentEff) :=
  let cur := (alistGet eff spec.agent_type).getD defaultEff
  let totalSpawned := cur.total_spawned + 1
  let newAvg := (cur.average_confidence * ((totalSpawned : ℚ) - 1) + spec.confidence)
    / (totalSpawned : ℚ)
  let agentUpdates := updates.filter (fun u => u.agent = some spec.agent_type)
  let newSuccessful :=
    if agentUpdates ≠ [] then cur.successful_updates + agentUpdates.length
    else cur.successful_updates
  alistSet eff spec.agent_type
    { total_spawned := totalSpawned
      successful_updates := newSuccessful
      average_confidence := newAvg
      last_used := some timestamp }

/-- `LearningEngine.learn_from_event` (its in-memory state transition; the
persistence step is modelled separately as `save_all_data_trace`). -/
def learn_from_event (st : LearningStore) (ev : Event) (specs : List AgentSpec)
    (outcome : String) (updates : List UpdateRec) (timestamp : String) : LearningStore :=
  let patternKey := extract_pattern_key ev
  let patterns := alistSet st.patterns patternKey (patternCount st patternKey + 1)
  let m := st.success_metrics
  let metrics : SuccessMetrics :=
    { m with
      total_events := m.total_events + 1
      successful_updates :=
        if outcome = "success" then m.successful_updates + 1 else m.successful_updates
      failed_updates :=
        if outcome = "failure" then m.failed_updates + 1 else m.failed_updates }
  let eff := specs.foldl (fun e s => updateEffForSpec e s updates timestamp)
    st.agent_effectiveness
  let entry : LogEntry :=
    { timestamp := timestamp
      pattern_key := patternKey
      agents_spawned := specs.map (fun a => a.agent_type)
      outcome := outcome
      updates_count := updates.length
      summary_files := ev.files
      summary_message := ev.message
      summary_error_count := ev.errors.length }
  let log := st.learning_log ++ [entry]
  let log := if log.length > 100 then log.drop (log.length - 100) else log
  { patterns := patterns
    success_metrics := metrics
    agent_effectiveness := eff
    learning_log := log }

/-- `LearningEngine._calculate_pattern_similarity`: Jaccard index over the
`|`-delimited component sets of the two keys. -/
def pattern_similarity (p1 p2 : String) : ℚ :=
  let c1 := (splitStrAt (fun c => c = Char.ofNat 124) p1).dedup
  let c2 := (splitStrAt (fun c => c = Char.ofNat 124) p2).dedup
  if c1 = [] ∨ c2 = [] then 0
  else
    let inter := (c1.filter (fun x => c2.contains x)).length
    let union := (c1 ++ c2.filter (fun x => ¬ c1.contains x)).length
    if union = 0 then 0 else (inter : ℚ) / (union : ℚ)

/-- The outcome weight dict `.get(outcome, 0.0)`. -/
def outcomeWeight (outcome : String) : ℚ :=
  if outcome = "success" then 1
  else if outcome = "partial" then 1/2
  else 0

/-- Add `v` to the accumulated score of key `t` (defaultdict float). -/
def alistAdd (acc : List (String × ℚ)) (t : String) (v : ℚ) : List (String × ℚ) :=
  alistSet acc t ((alistGet acc t).getD 0 + v)

/-- The descending-score sort key of
`sorted(agent_scores.items(), key=lambda x: x[1], reverse=True)`. -/
def scoreGE (a b : String × ℚ) : Prop := b.2 ≤ a.2

instance : DecidableRel scoreGE := fun a b => by
  unfold scoreGE; infer_instance

instance : IsTotal (String × ℚ) scoreGE where
  total a b := le_total b.2 a.2

instance : IsTrans (String × ℚ) scoreGE where
  trans _ _ _ hab hbc := le_trans hbc hab

/-- The `similar_patterns` construction over a stored pattern list: every
stored pattern whose similarity to the queried key strictly exceeds `0.5`,
weighted by `count * similarity`. -/
def similarPatternsList (ps : List (String × Nat)) (key : String) : List (String × ℚ) :=
  ps.filterMap (fun p =>
    if pattern_similarity key p.1 > 1/2 then
      some (p.1, (p.2 : ℚ) * pattern_similarity key p.1)
    else none)

/-- The `similar_patterns` map built by `get_recommended_agents` from
`self.patterns`. -/
def similarPatterns (st : LearningStore) (key : String) : List (String × ℚ) :=
  similarPatternsList st.patterns key

/-- One iteration of the scoring loop of `get_recommended_agents`: if the
entry's pattern key is among the similar patterns, add
`weight * outcome_score` to each spawned agent type's score; otherwise the
accumulator is unchanged. -/
def scoreStep (st : LearningStore) (key : String) (acc : List (String × ℚ))
    (le : LogEntry) : List (String × ℚ) :=
  match ((similarPatterns st key).find? (fun q => q.1 = le.pattern_key)) with
  | some q =>
      le.agents_spawned.foldl
        (fun acc2 t => alistAdd acc2 t (q.2 * outcomeWeight le.outcome)) acc
  | none => acc

/-- The accumulated `agent_scores` defaultdict built from the learning log. -/
def agentScores (st : LearningStore) (key : String) : List (String × ℚ) :=
  st.learning_log.foldl (scoreStep st key) []

/-- `LearningEngine.get_recommended_agents`.  The method only reads
`self.patterns` and `self.learning_log`; its state component mirrors the
(absent) mutation of `self`, so the store is returned unchanged. -/
def get_recommended_agents (st : LearningStore) (ev : Event) :
    List String × LearningStore :=
  let key := extract_pattern_key ev
  let sortedScores := (agentScores st key).insertionSort scoreGE
  (((sortedScores.take 3).map (fun p => p.1)), st)

/-- The score the specification ascribes to an agent type: summed over the
logged learning events whose stored pattern cleared the similarity
threshold, `similarity * occurrence_count * outcome_weight`, once per
occurrence of the agent type in that entry's spawned list. -/
def claimedScore (st : LearningStore) (key t : String) : ℚ :=
  (st.learning_log.map (fun le =>
    if pattern_similarity key le.pattern_key > 1/2 then
      (le.agents_spawned.count t : ℚ)
        * ((patternCount st le.pattern_key : ℚ) * pattern_similarity key le.pattern_key
            * outcomeWeight le.outcome)
    else 0)).sum

/-! ## Persistence trace (`LearningEngine._save_all_data`)

`_save_all_data` writes each of the four files with `open(path, "w")`
followed by `json.dump`: opening with mode `"w"` truncates the file in
place, after which the serialized data is written.  The trace below records
those primitive file-system effects in program order; a crash corresponds
to executing only a prefix of the trace. -/

/-- The four learning-state files. -/
inductive LFile where
  | patternsFile
  | successMetricsFile
  | agentEffectivenessFile
  | learningLogFile
deriving DecidableEq

/-- A primitive file-system effect. -/
inductive FileOp where
  | truncate (f : LFile)
  | writeAll (f : LFile) (content : String)
deriving DecidableEq

/-- The effect sequence of `_save_all_data`, given the serialized content of
each structure. -/
def save_all_data_trace (content : LFile → String) : List FileOp :=
  [FileOp.truncate LFile.patternsFile,
   FileOp.writeAll LFile.patternsFile (content LFile.patternsFile),
   FileOp.truncate LFile.successMetricsFile,
   FileOp.writeAll LFile.successMetricsFile (content LFile.successMetricsFile),
   FileOp.truncate LFile.agentEffectivenessFile,
   FileOp.writeAll LFile.agentEffectivenessFile (content LFile.agentEffectivenessFile),
   FileOp.truncate LFile.learningLogFile,
   FileOp.writeAll LFile.learningLogFile (content LFile.learningLogFile)]

/-- Apply one primitive effect to the file-system state. -/
def applyOp (fs : LFile → String) : FileOp → (LFile → String)
  | FileOp.truncate f => fun g => if g = f then "" else fs g
  | FileOp.writeAll f c => fun g => if g = f then c else fs g

/-- Apply a sequence of effects. -/
def applyOps (fs : LFile → String) (ops : List FileOp) : LFile → String :=
  ops.foldl applyOp fs

/-! ## Theorems -/

/-- The event of end-to-end scenario C. -/
def scenarioCEvent : Event :=
  { files := ["src/api/handler.py"]
    message := "Fix TypeError in user handler"
    errors := [⟨"TypeError", 5⟩] }

/-- The id source used for concrete generator runs. -/
def natIds : Nat → String := fun n => toString n

/-- The error-handler spec generated for scenario C. -/
def scenarioCErrorSpec : AgentSpec :=
  create_agent "error_handler" (analyze_event scenarioCEvent) "t" "1"
    "Errors detected (1 errors)"

/-- The api-specialist spec generated for scenario C. -/
def scenarioCApiSpec : AgentSpec :=
  create_agent "api_specialist" (analyze_event scenarioCEvent) "t" "2"
    "API-related Python files detected"

/-- The documentation spec generated for scenario C (the `api` documentation
keyword matches the path `src/api/handler.py`). -/
def scenarioCDocSpec : AgentSpec :=
  create_agent "documentation_specialist" (analyze_event scenarioCEvent) "t" "0"
    "Documentation files modified"

theorem scenarioC_generate_eval :
    generate_agents (analyze_event scenarioCEvent) "t" natIds
      = [scenarioCErrorSpec, scenarioCApiSpec, scenarioCDocSpec] := rfl

theorem scenarioC_error_count : (analyze_event scenarioCEvent).error_count = 1 := rfl

/-- C1 counterexample: for scenario C's event the analyzer's `error_count`
is the length of the error list (`1`), not the `count` field of its single
record (`5`); the spawned error-handling spec therefore has confidence
`min(1*0.2, 1.0) = 0.2`, and no error-handling spec of confidence `1.0`
exists in the generator's output. -/
theorem scenarioC_no_confidence_one_error_spec :
    ¬ ((analyze_event scenarioCEvent).error_focus = true
       ∧ ∃ s ∈ generate_agents (analyze_event scenarioCEvent) "t" natIds,
           s.agent_type = "error_handler" ∧ s.confidence = 1 ∧ s.priority = 1) := by
  rintro ⟨-, s, hs, htype, hconf, -⟩
  rw [scenarioC_generate_eval] at hs
  simp only [List.mem_cons, List.not_mem_nil, or_false] at hs
  rcases hs with rfl | rfl | rfl
  · have heq : scenarioCErrorSpec.confidence = min ((1 : ℚ) * (1/5)) 1 := rfl
    rw [heq, min_eq_left (by norm_num), one_mul] at hconf
    exact absurd hconf (by norm_num)
  · exact absurd htype (by decide)
  · exact absurd htype (by decide)

/-- C1 (amended): for scenario C's event the classifier sets `error_focus`
true, and the deterministic generator spawns an error-handling spec at the
highest priority tier `1` whose confidence is
`min(error_count*0.2, 1.0)` where `error_count` is the number of error
records, i.e. `min(1*0.2, 1.0) = 0.2`. -/
theorem scenarioC_spawns_error_handler :
    (analyze_event scenarioCEvent).error_focus = true
    ∧ (analyze_event scenarioCEvent).error_count = 1
    ∧ ∃ s ∈ generate_agents (analyze_event scenarioCEvent) "t" natIds,
        s.agent_type = "error_handler"
        ∧ s.confidence = min (((analyze_event scenarioCEvent).error_count : ℚ) * (1/5)) 1
        ∧ s.confidence = 1/5
        ∧ s.priority = 1 := by
  refine ⟨rfl, rfl, scenarioCErrorSpec, ?_, rfl, rfl, ?_, rfl⟩
  · rw [scenarioC_generate_eval]; exact List.mem_cons_self _ _
  · have : scenarioCErrorSpec.confidence = min ((1 : ℚ) * (1/5)) 1 := rfl
    rw [this, min_eq_left (by norm_num), one_mul]

/-- C10: `get_recommended_agents` is a pure read-only query: it returns the
store component unchanged — patterns, success metrics, per-agent
effectiveness and learning log are identical before and after the call. -/
theorem get_recommended_agents_pure (st : LearningStore) (ev : Event) :
    (get_recommended_agents st ev).2 = st := rfl

/-- A context whose only focus is documentation (as produced, e.g., for a
pure `README.md` change). -/
def docOnlyCtx : ContextAnalysis :=
  { security_focus := false
    mvp_focus := false
    performance_focus := false
    documentation_focus := true
    error_focus := false
    files_changed := []
    commit_message := ""
    error_count := 0
    file_types := ⟨0, 0, 0, 0, 0, 0, 0, 0⟩
    complexity_score := 0
    confidence := ⟨0, 0, 0⟩ }

/-- C2 counterexample: on an external-call failure the adaptive generator
returns its keyword fallback, which is not the template-driven generator's
result: for a documentation-only context the fallback produces no specs at
all while the template generator spawns a documentation specialist, so not
even the sets of `agent_type`s agree. -/
theorem ai_fallback_differs_from_template :
    (generate_with_ai docOnlyCtx (AIResult.failure "boom") "t" natIds).map
        (fun s => s.agent_type) = []
    ∧ (generate_agents docOnlyCtx "t" natIds).map (fun s => s.agent_type)
        = ["documentation_specialist"]
    ∧ ¬ ((generate_with_ai docOnlyCtx (AIResult.failure "boom") "t" natIds).map
          (fun s => s.agent_type)).Perm
        ((generate_agents docOnlyCtx "t" natIds).map (fun s => s.agent_type)) := by
  refine ⟨rfl, rfl, ?_⟩
  intro h
  exact absurd h.length_eq (by decide)

/-- C2 (amended): when the adaptive generator's external call raises or
returns unparseable content, the generator silently returns exactly the
keyword-based fallback generation for the same context — a spec list that
contains a security / mvp / performance spec iff the corresponding focus
flag is set (no thresholds, the fallback's own fixed targets and tags,
empty dependencies) — and no error is surfaced to the caller; this result
generally differs from the template-driven generator's output. -/
theorem ai_failure_falls_back (ctx : ContextAnalysis) (msg ts : String)
    (ids : Nat → String) :
    generate_with_ai ctx (AIResult.failure msg) ts ids = generate_fallback ctx ts ids
    ∧ ∀ t, (∃ s ∈ generate_fallback ctx ts ids, s.agent_type = t) ↔
        ((t = "security_specialist" ∧ ctx.security_focus = true)
         ∨ (t = "mvp_strategist" ∧ ctx.mvp_focus = true)
         ∨ (t = "performance_expert" ∧ ctx.performance_focus = true)) := by
  refine ⟨rfl, fun t => ?_⟩
  simp only [generate_fallback, List.mem_insertionSort, List.mem_append]
  cases hs : ctx.security_focus <;> cases hm : ctx.mvp_focus <;>
    cases hp : ctx.performance_focus <;>
    simp [eq_comm, and_or_left, or_and_right, exists_or, exists_eq_right,
      exists_eq_left, or_assoc]

theorem ai_failure_falls_back_witness :
    generate_with_ai docOnlyCtx (AIResult.failure "boom") "t" natIds
      = generate_fallback docOnlyCtx "t" natIds :=
  (ai_failure_falls_back docOnlyCtx "boom" "t" natIds).1

/-- Prior file contents for the persistence counterexample. -/
def exPrior : LFile → String := fun _ => "old"

/-- New serialized contents for the persistence counterexample. -/
def exContent : LFile → String := fun _ => "new"

/-- C9 counterexample: `_save_all_data` opens each file with mode `w`
(truncate in place) and then writes; after executing only the first
primitive effect of the save trace the patterns file is empty — neither its
fully committed prior state nor its fully committed new state, so the
write-new-then-replace reading fails. -/
theorem save_trace_not_atomic :
    ¬ (∀ (n : Nat) (f : LFile),
        applyOps exPrior ((save_all_data_trace exContent).take n) f = exPrior f
        ∨ applyOps exPrior ((save_all_data_trace exContent).take n) f = exContent f) := by
  intro h
  have h1 := h 1 LFile.patternsFile
  revert h1
  decide

/-- C9 (amended): the save path writes each of the four learning files in
place (truncate, then write): a completed save leaves every file holding
its new content, but a crash between a file's truncation and its write
exposes an empty, partially-committed file — there is no
write-new-then-replace step. -/
theorem save_trace_in_place (fs content : LFile → String) :
    (∀ f, applyOps fs (save_all_data_trace content) f = content f)
    ∧ applyOps fs ((save_all_data_trace content).take 1) LFile.patternsFile = "" := by
  constructor
  · intro f
    cases f <;> simp [applyOps, applyOp, save_all_data_trace]
  · simp [applyOps, applyOp, save_all_data_trace]

theorem raw_agents_types (ctx : ContextAnalysis) (ts : String) (ids : Nat → String) :
    (raw_agents ctx ts ids).map (fun s => s.agent_type)
      = (raw_agent_choices ctx).map (fun p => p.1) := by
  rw [raw_agents, List.map_map]
  have h : ((fun s : AgentSpec => s.agent_type)
      ∘ (fun p : Nat × (String × String) => create_agent p.2.1 ctx ts (ids p.1) p.2.2))
      = (fun a : String × String => a.1) ∘ Prod.snd := rfl
  rw [h, ← List.map_map, List.enum_map_snd]

theorem mem_map_fst_ite_singleton {c : Prop} [Decidable c] (x : String × String)
    (t : String) :
    (t ∈ (if c then [x] else []).map (fun p => p.1)) ↔ (c ∧ t = x.1) := by
  split <;> simp_all

theorem frontend_mem_choices (ctx : ContextAnalysis) :
    ("frontend_specialist" ∈ (raw_agent_choices ctx).map (fun p => p.1))
      ↔ 0 < frontend_file_count ctx := by
  simp [raw_agent_choices, List.map_append, List.mem_append, mem_map_fst_ite_singleton]

/-- A context whose only changed file is a single `.html` file. -/
def htmlOnlyCtx : ContextAnalysis :=
  { security_focus := false
    mvp_focus := false
    performance_focus := false
    documentation_focus := false
    error_focus := false
    files_changed := ["index.html"]
    commit_message := ""
    error_count := 0
    file_types := ⟨0, 0, 0, 1, 0, 0, 0, 0⟩
    complexity_score := 0
    confidence := ⟨0, 0, 0⟩ }

/-- The frontend spec the generator produces for `htmlOnlyCtx`. -/
def htmlFrontendSpec : AgentSpec :=
  create_agent "frontend_specialist" htmlOnlyCtx "t" "0" "Frontend files detected (1 files)"

/-- C3 counterexample: for a context with one html file and no
script/typed-script files, the frontend specialist spawns (the spawn count
`javascript+typescript+html+css = 1` is positive) but its confidence is
computed from `javascript+typescript` only, giving `0` rather than the
claimed `min(1*0.2, 1.0) = 0.2`. -/
theorem frontend_confidence_counterexample :
    ¬ (((∃ s ∈ generate_agents htmlOnlyCtx "t" natIds,
          s.agent_type = "frontend_specialist") ↔ 0 < frontend_file_count htmlOnlyCtx)
       ∧ ∀ s ∈ generate_agents htmlOnlyCtx "t" natIds,
           s.agent_type = "frontend_specialist" →
             s.confidence = min ((frontend_file_count htmlOnlyCtx : ℚ) * (1/5)) 1) := by
  rintro ⟨-, h⟩
  have hout : generate_agents htmlOnlyCtx "t" natIds = [htmlFrontendSpec] := rfl
  have hc := h htmlFrontendSpec (by rw [hout]; exact List.mem_cons_self _ _) rfl
  have hl : htmlFrontendSpec.confidence = min (((0 + 0 : ℕ) : ℚ) * (1/5)) 1 := rfl
  have hcount : frontend_file_count htmlOnlyCtx = 1 := rfl
  rw [hl, hcount] at hc
  rw [min_eq_left (by norm_num), min_eq_left (by norm_num)] at hc
  norm_num at hc

/-- C3 (amended): for every context the deterministic generator spawns a
frontend specialist iff the count of javascript+typescript+html+css files
is positive, but that spec's confidence is
`min((javascript+typescript)*0.2, 1.0)` — the markup and stylesheet counts
participate in the spawn decision only, not in the confidence. -/
theorem frontend_spawn_and_confidence (ctx : ContextAnalysis) (ts : String)
    (ids : Nat → String) :
    ((∃ s ∈ generate_agents ctx ts ids, s.agent_type = "frontend_specialist")
       ↔ 0 < frontend_file_count ctx)
    ∧ ∀ s ∈ generate_agents ctx ts ids, s.agent_type = "frontend_specialist" →
        s.confidence
          = min (((ctx.file_types.javascript + ctx.file_types.typescript : ℕ) : ℚ) * (1/5))
              1 := by
  have hperm : ((generate_agents ctx ts ids).map (fun s => s.agent_type)).Perm
      ((raw_agents ctx ts ids).map (fun s => s.agent_type)) :=
    (List.perm_insertionSort specLE _).map _
  constructor
  · constructor
    · rintro ⟨s, hs, htype⟩
      have hm : "frontend_specialist"
          ∈ (generate_agents ctx ts ids).map (fun s => s.agent_type) :=
        List.mem_map.mpr ⟨s, hs, htype⟩
      have hm2 := hperm.mem_iff.mp hm
      rw [raw_agents_types] at hm2
      exact (frontend_mem_choices ctx).mp hm2
    · intro hcount
      have hm : "frontend_specialist"
          ∈ (raw_agents ctx ts ids).map (fun s => s.agent_type) := by
        rw [raw_agents_types]; exact (frontend_mem_choices ctx).mpr hcount
      exact List.mem_map.mp (hperm.mem_iff.mpr hm)
  · intro s hs htype
    rw [generate_agents, List.mem_insertionSort, raw_agents] at hs
    obtain ⟨p, hp, rfl⟩ := List.mem_map.mp hs
    have ht : p.2.1 = "frontend_specialist" := htype
    show calculate_agent_confidence p.2.1 ctx = _
    rw [ht]
    simp [calculate_agent_confidence]

theorem frontend_spawn_and_confidence_witness :
    ∃ s ∈ generate_agents htmlOnlyCtx "t" natIds,
      s.agent_type = "frontend_specialist" :=
  (frontend_spawn_and_confidence htmlOnlyCtx "t" natIds).1.mpr (by decide)

theorem classify_file_total (ft : FileTypes) (p : String) :
    (classify_file ft p).total = ft.total + 1 := by
  simp only [classify_file]
  split_ifs <;> simp [FileTypes.total] <;> omega

theorem foldl_classify_total (files : List String) :
    ∀ ft : FileTypes, (files.foldl classify_file ft).total = ft.total + files.length := by
  induction files with
  | nil => intro ft; simp
  | cons f rest ih =>
    intro ft
    simp only [List.foldl_cons, List.length_cons, ih, classify_file_total]
    omega

theorem analyze_file_types_total (files : List String) :
    (analyze_file_types files).total = files.length := by
  have h := foldl_classify_total files ⟨0, 0, 0, 0, 0, 0, 0, 0⟩
  simpa [analyze_file_types, FileTypes.total] using h

/-- C4: for every event, all three confidence values of the analysis lie in
`[0, 1]`, and the file-type histogram counts sum to the number of changed
files. -/
theorem analyze_event_invariants (ev : Event) :
    (0 ≤ (analyze_event ev).confidence.security
      ∧ (analyze_event ev).confidence.security ≤ 1)
    ∧ (0 ≤ (analyze_event ev).confidence.mvp ∧ (analyze_event ev).confidence.mvp ≤ 1)
    ∧ (0 ≤ (analyze_event ev).confidence.performance
      ∧ (analyze_event ev).confidence.performance ≤ 1)
    ∧ (analyze_event ev).file_types.total = (analyze_event ev).files_changed.length := by
  refine ⟨⟨?_, min_le_right _ _⟩, ⟨?_, min_le_right _ _⟩, ⟨?_, min_le_right _ _⟩, ?_⟩
  · exact le_min
      (add_nonneg (mul_nonneg (Nat.cast_nonneg _) (by norm_num))
        (le_min (mul_nonneg (Nat.cast_nonneg _) (by norm_num)) (by norm_num)))
      zero_le_one
  · exact le_min (mul_nonneg (Nat.cast_nonneg _) (by norm_num)) zero_le_one
  · exact le_min
      (add_nonneg (mul_nonneg (Nat.cast_nonneg _) (by norm_num))
        (le_min (mul_nonneg (Nat.cast_nonneg _) (by norm_num)) (by norm_num)))
      zero_le_one
  · exact analyze_file_types_total ev.files

theorem filter_orderedInsert_of_neg {α : Type} (r : α → α → Prop) [DecidableRel r]
    (p : α → Bool) (x : α) (hx : p x = false) :
    ∀ l : List α, (l.orderedInsert r x).filter p = l.filter p := by
  intro l
  induction l with
  | nil => simp [List.orderedInsert, hx]
  | cons y ys ih =>
    by_cases hr : r x y
    · simp [List.orderedInsert, hr, List.filter_cons, hx]
    · simp only [List.orderedInsert, if_neg hr, List.filter_cons, ih]

theorem filter_orderedInsert_of_pos {α : Type} (r : α → α → Prop) [DecidableRel r]
    (p : α → Bool) (x : α) (hx : p x = true) (h : ∀ y, p y = true → r x y) :
    ∀ l : List α, (l.orderedInsert r x).filter p = x :: l.filter p := by
  intro l
  induction l with
  | nil => simp [List.orderedInsert, hx]
  | cons y ys ih =>
    by_cases hr : r x y
    · simp [List.orderedInsert, hr, List.filter_cons, hx]
    · have hy : p y = false := by
        cases hpy : p y
        · rfl
        · exact absurd (h y hpy) hr
      simp only [List.orderedInsert, if_neg hr, List.filter_cons, hy, ih]
      simp

theorem filter_insertionSort {α : Type} (r : α → α → Prop) [DecidableRel r]
    (p : α → Bool) (h : ∀ x y, p x = true → p y = true → r x y) :
    ∀ l : List α, (l.insertionSort r).filter p = l.filter p := by
  intro l
  induction l with
  | nil => rfl
  | cons a l ih =>
    show ((l.insertionSort r).orderedInsert r a).filter p = (a :: l).filter p
    cases ha : p a
    · rw [filter_orderedInsert_of_neg r p a ha, ih, List.filter_cons, ha]
      simp
    · rw [filter_orderedInsert_of_pos r p a ha (fun y hy => h a y ha hy), ih,
        List.filter_cons, ha]
      simp

/-- C5: the deterministic generator's output is sorted ascending by
`priority` and, within equal priorities, descending by `confidence`
(`Sorted specLE`); and the sort is stable: filtering the output on any
exact sort key `(priority, confidence)` returns those specs in their
original generation order. -/
theorem generate_agents_sorted_stable (ctx : ContextAnalysis) (ts : String)
    (ids : Nat → String) :
    List.Sorted specLE (generate_agents ctx ts ids)
    ∧ ∀ (pr : Nat) (c : ℚ),
        (generate_agents ctx ts ids).filter
          (fun s => decide (s.priority = pr) && decide (s.confidence = c))
        = (raw_agents ctx ts ids).filter
          (fun s => decide (s.priority = pr) && decide (s.confidence = c)) := by
  constructor
  · exact List.sorted_insertionSort specLE _
  · intro pr c
    apply filter_insertionSort
    intro x y hx hy
    simp only [Bool.and_eq_true, decide_eq_true_eq] at hx hy
    exact Or.inr ⟨hx.1.trans hy.1.symm, le_of_eq (hy.2.trans hx.2.symm)⟩

/-! Association-list lemmas shared by the learning-engine proofs. -/

theorem alistGet_alistSet_self {α : Type} (l : List (String × α)) (k : String) (v : α) :
    alistGet (alistSet l k v) k = some v := by
  induction l with
  | nil => simp [alistSet, alistGet]
  | cons p rest ih =>
    obtain ⟨k', v'⟩ := p
    by_cases h : k' = k
    · simp [alistSet, h, alistGet]
    · simp only [alistSet, if_neg h]
      simpa [alistGet, List.find?, h] using ih

theorem alistGet_alistSet_ne {α : Type} (l : List (String × α)) (k k' : String) (v : α)
    (h : k' ≠ k) : alistGet (alistSet l k v) k' = alistGet l k' := by
  induction l with
  | nil => simp [alistSet, alistGet, List.find?, Ne.symm h]
  | cons p rest ih =>
    obtain ⟨k₀, v₀⟩ := p
    by_cases h0 : k₀ = k
    · subst h0
      simp [alistSet, alistGet, List.find?, Ne.symm h]
    · simp only [alistSet, if_neg h0]
      by_cases h1 : k₀ = k'
      · simp [alistGet, List.find?, h1]
      · simpa [alistGet, List.find?, h1] using ih

/-- Effectiveness record stored under `t` in an effectiveness list. -/
def effIn (eff : List (String × AgentEff)) (t : String) : AgentEff :=
  (alistGet eff t).getD defaultEff

theorem effOf_effIn (st : LearningStore) (t : String) :
    effOf st t = effIn st.agent_effectiveness t := rfl

theorem effIn_updateEffForSpec_self (eff : List (String × AgentEff)) (s : AgentSpec)
    (updates : List UpdateRec) (ts : String) :
    effIn (updateEffForSpec eff s updates ts) s.agent_type
      = { total_spawned := (effIn eff s.agent_type).total_spawned + 1
          successful_updates :=
            if (updates.filter (fun u => u.agent = some s.agent_type)) ≠ [] then
              (effIn eff s.agent_type).successful_updates
                + (updates.filter (fun u => u.agent = some s.agent_type)).length
            else (effIn eff s.agent_type).successful_updates
          average_confidence :=
            ((effIn eff s.agent_type).average_confidence
                * (((effIn eff s.agent_type).total_spawned + 1 : ℕ) - 1 : ℚ)
              + s.confidence) / (((effIn eff s.agent_type).total_spawned + 1 : ℕ) : ℚ)
          last_used := some ts } := by
  simp [updateEffForSpec, effIn, alistGet_alistSet_self]

theorem effIn_updateEffForSpec_ne (eff : List (String × AgentEff)) (s : AgentSpec)
    (updates : List UpdateRec) (ts t : String) (h : t ≠ s.agent_type) :
    effIn (updateEffForSpec eff s updates ts) t = effIn eff t := by
  simp [updateEffForSpec, effIn, alistGet_alistSet_ne _ _ _ _ h]

theorem effIn_foldl_mono (specs : List AgentSpec) (updates : List UpdateRec) (ts : String) :
    ∀ (eff : List (String × AgentEff)) (t : String),
      (effIn eff t).total_spawned
          ≤ (effIn (specs.foldl (fun e s => updateEffForSpec e s updates ts) eff) t).total_spawned
      ∧ (effIn eff t).successful_updates
          ≤ (effIn (specs.foldl (fun e s => updateEffForSpec e s updates ts) eff) t).successful_updates := by
  induction specs with
  | nil => intro eff t; exact ⟨le_refl _, le_refl _⟩
  | cons s rest ih =>
    intro eff t
    simp only [List.foldl_cons]
    refine ⟨le_trans ?_ (ih _ t).1, le_trans ?_ (ih _ t).2⟩
    · by_cases h : t = s.agent_type
      · subst h; rw [effIn_updateEffForSpec_self]; exact Nat.le_succ _
      · rw [effIn_updateEffForSpec_ne _ _ _ _ _ h]
    · by_cases h : t = s.agent_type
      · subst h; rw [effIn_updateEffForSpec_self]
        dsimp only
        split <;> omega
      · rw [effIn_updateEffForSpec_ne _ _ _ _ _ h]

theorem patternCount_learn_self (st : LearningStore) (ev : Event) (specs : List AgentSpec)
    (outcome : String) (updates : List UpdateRec) (ts : String) :
    patternCount (learn_from_event st ev specs outcome updates ts) (extract_pattern_key ev)
      = patternCount st (extract_pattern_key ev) + 1 := by
  simp [learn_from_event, patternCount, alistGet_alistSet_self]

theorem patternCount_learn_mono (st : LearningStore) (ev : Event) (specs : List AgentSpec)
    (outcome : String) (updates : List UpdateRec) (ts : String) (k' : String) :
    patternCount st k' ≤ patternCount (learn_from_event st ev specs outcome updates ts) k' := by
  by_cases h : k' = extract_pattern_key ev
  · subst h; rw [patternCount_learn_self]; exact Nat.le_succ _
  · simp [learn_from_event, patternCount, alistGet_alistSet_ne _ _ _ _ h]

/-- C6: two identical `learn_from_event` calls raise the derived pattern
key's occurrence count by exactly 2 (the first call creates a missing
record with count 1, i.e. raises the defaulted count 0 by one); no stored
counter (pattern counts, global metrics, per-agent spawn/update counters)
ever decreases; and a `"partial"` outcome increments `total_events` while
leaving both the `successful_updates` and `failed_updates` global counters
unchanged. -/
theorem learn_from_event_counts (st : LearningStore) (ev : Event) (specs : List AgentSpec)
    (outcome : String) (updates : List UpdateRec) (ts₁ ts₂ : String) :
    patternCount (learn_from_event st ev specs outcome updates ts₁) (extract_pattern_key ev)
        = patternCount st (extract_pattern_key ev) + 1
    ∧ patternCount
        (learn_from_event (learn_from_event st ev specs outcome updates ts₁)
          ev specs outcome updates ts₂) (extract_pattern_key ev)
        = patternCount st (extract_pattern_key ev) + 2
    ∧ (∀ k', patternCount st k'
        ≤ patternCount
            (learn_from_event (learn_from_event st ev specs outcome updates ts₁)
              ev specs outcome updates ts₂) k')
    ∧ (learn_from_event (learn_from_event st ev specs outcome updates ts₁)
        ev specs outcome updates ts₂).success_metrics.total_events
        = st.success_metrics.total_events + 2
    ∧ st.success_metrics.successful_updates
        ≤ (learn_from_event (learn_from_event st ev specs outcome updates ts₁)
            ev specs outcome updates ts₂).success_metrics.successful_updates
    ∧ st.success_metrics.failed_updates
        ≤ (learn_from_event (learn_from_event st ev specs outcome updates ts₁)
            ev specs outcome updates ts₂).success_metrics.failed_updates
    ∧ (∀ t, (effOf st t).total_spawned
          ≤ (effOf (learn_from_event (learn_from_event st ev specs outcome updates ts₁)
              ev specs outcome updates ts₂) t).total_spawned
        ∧ (effOf st t).successful_updates
          ≤ (effOf (learn_from_event (learn_from_event st ev specs outcome updates ts₁)
              ev specs outcome updates ts₂) t).successful_updates)
    ∧ (learn_from_event st ev specs "partial" updates ts₁).success_metrics.total_events
        = st.success_metrics.total_events + 1
    ∧ (learn_from_event st ev specs "partial" updates ts₁).success_metrics.successful_updates
        = st.success_metrics.successful_updates
    ∧ (learn_from_event st ev specs "partial" updates ts₁).success_metrics.failed_updates
        = st.success_metrics.failed_updates := by
  refine ⟨patternCount_learn_self st ev specs outcome updates ts₁, ?_, ?_, ?_, ?_, ?_, ?_,
    ?_, ?_, ?_⟩
  · rw [patternCount_learn_self, patternCount_learn_self]
  · intro k'
    exact le_trans (patternCount_learn_mono st ev specs outcome updates ts₁ k')
      (patternCount_learn_mono _ ev specs outcome updates ts₂ k')
  · simp [learn_from_event]
  · dsimp only [learn_from_event]
    split <;> omega
  · dsimp only [learn_from_event]
    split <;> omega
  · intro t
    rw [effOf_effIn, effOf_effIn]
    show (effIn st.agent_effectiveness t).total_spawned ≤ (effIn _ t).total_spawned
      ∧ (effIn st.agent_effectiveness t).successful_updates ≤ (effIn _ t).successful_updates
    refine ⟨le_trans (effIn_foldl_mono specs updates ts₁ st.agent_effectiveness t).1 ?_,
      le_trans (effIn_foldl_mono specs updates ts₁ st.agent_effectiveness t).2 ?_⟩
    · exact (effIn_foldl_mono specs updates ts₂ _ t).1
    · exact (effIn_foldl_mono specs updates ts₂ _ t).2
  · simp [learn_from_event]
  · simp [learn_from_event]
  · simp [learn_from_event]

/-! C7 infrastructure: one learning interaction and its replay. -/

/-- The arguments of one `learn_from_event` call. -/
structure LearnCall where
  ev : Event
  specs : List AgentSpec
  outcome : String
  updates : List UpdateRec
  ts : String

/-- Replay a sequence of `learn_from_event` calls. -/
def applyCalls (st : LearningStore) (calls : List LearnCall) : LearningStore :=
  calls.foldl (fun s c => learn_from_event s c.ev c.specs c.outcome c.updates c.ts) st

/-- The confidences recorded for agent type `t` by one spec list, in
processing order. -/
def specConfs (t : String) (specs : List AgentSpec) : List ℚ :=
  (specs.filter (fun s => s.agent_type = t)).map (fun s => s.confidence)

/-- All confidences ever recorded for agent type `t` over a call sequence. -/
def confsFor (t : String) (calls : List LearnCall) : List ℚ :=
  calls.flatMap (fun c => specConfs t c.specs)

/-- The mean invariant: the record's spawn counter equals the number of
recorded confidences and its running average is their arithmetic mean. -/
def MeanOK (e : AgentEff) (cs : List ℚ) : Prop :=
  e.total_spawned = cs.length
  ∧ e.average_confidence = if cs.length = 0 then 0 else cs.sum / (cs.length : ℚ)

theorem meanOK_update (eff : List (String × AgentEff)) (s : AgentSpec)
    (updates : List UpdateRec) (ts t : String) (cs : List ℚ)
    (h : MeanOK (effIn eff t) cs) :
    MeanOK (effIn (updateEffForSpec eff s updates ts) t)
      (cs ++ if s.agent_type = t then [s.confidence] else []) := by
  by_cases hst : t = s.agent_type
  · subst hst
    rw [effIn_updateEffForSpec_self]
    obtain ⟨hn, ha⟩ := h
    simp only [if_pos rfl, MeanOK, List.length_append, List.length_singleton, hn,
      List.sum_append, List.sum_singleton]
    refine ⟨rfl, ?_⟩
    rw [ha]
    by_cases h0 : cs.length = 0
    · have hcs : cs = [] := List.length_eq_zero.mp h0
      subst hcs
      norm_num
    · rw [if_neg h0, if_neg (by omega)]
      have hne : ((cs.length : ℚ)) ≠ 0 := Nat.cast_ne_zero.mpr h0
      field_simp
  · rw [effIn_updateEffForSpec_ne _ _ _ _ _ hst, if_neg (fun hh => hst hh.symm),
      List.append_nil]
    exact h

theorem meanOK_foldl (updates : List UpdateRec) (ts t : String) :
    ∀ (specs : List AgentSpec) (eff : List (String × AgentEff)) (cs : List ℚ),
      MeanOK (effIn eff t) cs →
      MeanOK (effIn (specs.foldl (fun e s => updateEffForSpec e s updates ts) eff) t)
        (cs ++ specConfs t specs) := by
  intro specs
  induction specs with
  | nil => intro eff cs h; simpa [specConfs] using h
  | cons s rest ih =>
    intro eff cs h
    have hstep := meanOK_update eff s updates ts t cs h
    have hrec := ih (updateEffForSpec eff s updates ts) _ hstep
    rw [List.append_assoc] at hrec
    simp only [List.foldl_cons]
    convert hrec using 2
    simp only [specConfs, List.filter_cons]
    split
    · next hpred =>
      simp only [List.map_cons]
      have : s.agent_type = t := by simpa using hpred
      rw [if_pos this]
      rfl
    · next hpred =>
      have : ¬ s.agent_type = t := by simpa using hpred
      rw [if_neg this]
      rfl

theorem meanOK_learn (st : LearningStore) (ev : Event) (specs : List AgentSpec)
    (outcome : String) (updates : List UpdateRec) (ts t : String) (cs : List ℚ)
    (h : MeanOK (effOf st t) cs) :
    MeanOK (effOf (learn_from_event st ev specs outcome updates ts) t)
      (cs ++ specConfs t specs) := by
  rw [effOf_effIn] at h ⊢
  exact meanOK_foldl updates ts t specs st.agent_effectiveness cs h

theorem meanOK_applyCalls (t : String) :
    ∀ (calls : List LearnCall) (st : LearningStore) (cs : List ℚ),
      MeanOK (effOf st t) cs →
      MeanOK (effOf (applyCalls st calls) t) (cs ++ confsFor t calls) := by
  intro calls
  induction calls with
  | nil => intro st cs h; simpa [applyCalls, confsFor] using h
  | cons c rest ih =>
    intro st cs h
    have hstep := meanOK_learn st c.ev c.specs c.outcome c.updates c.ts t cs h
    have hrec := ih _ _ hstep
    rw [List.append_assoc] at hrec
    simpa [applyCalls, confsFor] using hrec

/-- C7: each processed spec increments its agent type's `total_spawned` and
updates `average_confidence` by the incremental-mean formula
`new_avg = (old_avg*(n-1) + confidence)/n` with `n` the post-increment
count; consequently, after any sequence of `learn_from_event` calls
starting from the empty store, `total_spawned` equals the number of
confidences ever recorded for that agent type and `average_confidence`
equals their arithmetic mean. -/
theorem learn_incremental_mean (calls : List LearnCall) (t : String) :
    (effOf (applyCalls initStore calls) t).total_spawned = (confsFor t calls).length
    ∧ (confsFor t calls ≠ [] →
        (effOf (applyCalls initStore calls) t).average_confidence
          = (confsFor t calls).sum / ((confsFor t calls).length : ℚ))
    ∧ (∀ (eff : List (String × AgentEff)) (s : AgentSpec) (updates : List UpdateRec)
          (ts : String),
        (effIn (updateEffForSpec eff s updates ts) s.agent_type).total_spawned
          = (effIn eff s.agent_type).total_spawned + 1
        ∧ (effIn (updateEffForSpec eff s updates ts) s.agent_type).average_confidence
          = ((effIn eff s.agent_type).average_confidence
              * ((((effIn eff s.agent_type).total_spawned + 1 : ℕ) : ℚ) - 1) + s.confidence)
            / (((effIn eff s.agent_type).total_spawned + 1 : ℕ) : ℚ)) := by
  have hinit : MeanOK (effOf initStore t) [] := by
    constructor <;> simp [effOf, initStore, alistGet, defaultEff]
  have h := meanOK_applyCalls t calls initStore [] hinit
  rw [List.nil_append] at h
  refine ⟨h.1, fun hne => ?_, fun eff s updates ts => ?_⟩
  · rw [h.2, if_neg (by simpa [List.length_eq_zero] using hne)]
  · rw [effIn_updateEffForSpec_self]
    exact ⟨rfl, rfl⟩

/-- A concrete spec for the C7 witness. -/
def witnessSpec : AgentSpec :=
  { agent_id := "s1"
    agent_type := "security_specialist"
    focus_area := "security"
    documentation_targets := []
    priority := 1
    confidence := 3/4
    created_at := "t"
    context_reason := ""
    estimated_duration := ""
    tags := []
    dependencies := [] }

/-- A concrete learn call for the C7 witness. -/
def witnessCall : LearnCall :=
  { ev := { files := [], message := "", errors := [] }
    specs := [witnessSpec]
    outcome := "success"
    updates := []
    ts := "t" }

theorem learn_incremental_mean_witness :
    confsFor "security_specialist" [witnessCall] ≠ []
    ∧ (effOf (applyCalls initStore [witnessCall]) "security_specialist").average_confidence
      = (confsFor "security_specialist" [witnessCall]).sum
        / ((confsFor "security_specialist" [witnessCall]).length : ℚ) :=
  ⟨by simp [confsFor, specConfs, witnessCall, witnessSpec],
   (learn_incremental_mean [witnessCall] "security_specialist").2.1
     (by simp [confsFor, specConfs, witnessCall, witnessSpec])⟩

/-! C8 infrastructure: the accumulated score equals the specification's
summed score, and the returned ranking is descending in it. -/

/-- Accumulated score of agent type `t` (defaultdict float read). -/
def scoreIn (acc : List (String × ℚ)) (t : String) : ℚ :=
  (alistGet acc t).getD 0

theorem scoreIn_alistAdd (acc : List (String × ℚ)) (u t : String) (v : ℚ) :
    scoreIn (alistAdd acc u v) t = scoreIn acc t + (if t = u then v else 0) := by
  by_cases h : t = u
  · subst h
    simp [scoreIn, alistAdd, alistGet_alistSet_self]
  · simp [scoreIn, alistAdd, alistGet_alistSet_ne _ _ _ _ h, h]

theorem scoreIn_innerFold (w : ℚ) (t : String) :
    ∀ (l : List String) (acc : List (String × ℚ)),
      scoreIn (l.foldl (fun a u => alistAdd a u w) acc) t
        = scoreIn acc t + (l.count t : ℚ) * w := by
  intro l
  induction l with
  | nil => intro acc; simp
  | cons u rest ih =>
    intro acc
    rw [List.foldl_cons, ih, scoreIn_alistAdd, List.count_cons]
    by_cases h : t = u
    · rw [if_pos h, if_pos (by simp [h])]
      push_cast
      ring
    · rw [if_neg h, if_neg (by simp only [beq_iff_eq]; exact fun hh => h hh.symm)]
      push_cast
      ring

theorem similarPatternsList_cons_pos (key k₀ : String) (c₀ : Nat)
    (rest : List (String × Nat)) (h : pattern_similarity key k₀ > 1/2) :
    similarPatternsList ((k₀, c₀) :: rest) key
      = (k₀, (c₀ : ℚ) * pattern_similarity key k₀) :: similarPatternsList rest key := by
  simp only [similarPatternsList, List.filterMap_cons]
  rw [if_pos h]

theorem similarPatternsList_cons_neg (key k₀ : String) (c₀ : Nat)
    (rest : List (String × Nat)) (h : ¬ pattern_similarity key k₀ > 1/2) :
    similarPatternsList ((k₀, c₀) :: rest) key = similarPatternsList rest key := by
  simp only [similarPatternsList, List.filterMap_cons]
  rw [if_neg h]

theorem alistGet_cons_self {α : Type} (k : String) (v : α) (rest : List (String × α)) :
    alistGet ((k, v) :: rest) k = some v := by
  simp [alistGet, List.find?]

theorem alistGet_cons_ne {α : Type} (k₀ : String) (v₀ : α) (rest : List (String × α))
    (k : String) (h : k₀ ≠ k) : alistGet ((k₀, v₀) :: rest) k = alistGet rest k := by
  simp [alistGet, List.find?, h]

theorem find?_similarPatternsList (key : String) :
    ∀ (ps : List (String × Nat)) (k : String),
      ((similarPatternsList ps key).find? (fun q => q.1 = k) = none
        ∧ (pattern_similarity key k ≤ 1/2 ∨ alistGet ps k = none))
      ∨ ((similarPatternsList ps key).find? (fun q => q.1 = k)
          = some (k, ((alistGet ps k).getD 0 : ℚ) * pattern_similarity key k)
        ∧ pattern_similarity key k > 1/2) := by
  intro ps
  induction ps with
  | nil =>
    intro k
    exact Or.inl ⟨rfl, Or.inr rfl⟩
  | cons p rest ih =>
    intro k
    obtain ⟨k₀, c₀⟩ := p
    by_cases hs0 : pattern_similarity key k₀ > 1/2
    · rw [similarPatternsList_cons_pos key k₀ c₀ rest hs0]
      by_cases hk : k₀ = k
      · subst hk
        rw [alistGet_cons_self]
        refine Or.inr ⟨?_, hs0⟩
        simp [List.find?]
      · rw [alistGet_cons_ne k₀ c₀ rest k hk]
        have hskip : ((k₀, (c₀ : ℚ) * pattern_similarity key k₀)
              :: similarPatternsList rest key).find? (fun q => q.1 = k)
            = (similarPatternsList rest key).find? (fun q => q.1 = k) := by
          simp [List.find?, hk]
        rw [hskip]
        exact ih k
    · rw [similarPatternsList_cons_neg key k₀ c₀ rest hs0]
      by_cases hk : k₀ = k
      · subst hk
        rcases ih k₀ with ⟨hf, -⟩ | ⟨-, hs⟩
        · exact Or.inl ⟨hf, Or.inl (le_of_not_lt hs0)⟩
        · exact absurd hs hs0
      · rw [alistGet_cons_ne k₀ c₀ rest k hk]
        exact ih k

theorem scoreStep_of_none (st : LearningStore) (key : String)
    (acc : List (String × ℚ)) (le : LogEntry)
    (hf : (similarPatternsList st.patterns key).find? (fun q => q.1 = le.pattern_key)
      = none) :
    scoreStep st key acc le = acc := by
  simp only [scoreStep, similarPatterns]
  rw [hf]

theorem scoreStep_of_some (st : LearningStore) (key : String)
    (acc : List (String × ℚ)) (le : LogEntry) (q : String × ℚ)
    (hf : (similarPatternsList st.patterns key).find? (fun q => q.1 = le.pattern_key)
      = some q) :
    scoreStep st key acc le
      = le.agents_spawned.foldl
          (fun acc2 t => alistAdd acc2 t (q.2 * outcomeWeight le.outcome)) acc := by
  simp only [scoreStep, similarPatterns]
  rw [hf]

theorem scoreIn_logFold (st : LearningStore) (key t : String) :
    ∀ (log : List LogEntry) (acc : List (String × ℚ)),
      scoreIn (log.foldl (scoreStep st key) acc) t
      = scoreIn acc t
        + (log.map (fun le =>
            if pattern_similarity key le.pattern_key > 1/2 then
              (le.agents_spawned.count t : ℚ)
                * ((patternCount st le.pattern_key : ℚ)
                    * pattern_similarity key le.pattern_key
                    * outcomeWeight le.outcome)
            else 0)).sum := by
  intro log
  induction log with
  | nil => intro acc; simp
  | cons le rest ih =>
    intro acc
    rw [List.foldl_cons, ih, List.map_cons, List.sum_cons]
    rcases find?_similarPatternsList key st.patterns le.pattern_key with
      ⟨hf, hd⟩ | ⟨hf, hs⟩
    · rw [scoreStep_of_none st key acc le hf]
      rcases hd with hd | hd
      · rw [if_neg (not_lt.mpr hd)]
        ring
      · have hc : (patternCount st le.pattern_key : ℚ) = 0 := by
          simp [patternCount, hd]
        rw [hc]
        by_cases hif : pattern_similarity key le.pattern_key > 1/2
        · rw [if_pos hif]; ring
        · rw [if_neg hif]; ring
    · rw [scoreStep_of_some st key acc le _ hf, scoreIn_innerFold, if_pos hs]
      have hc : ((alistGet st.patterns le.pattern_key).getD 0 : ℚ)
          = (patternCount st le.pattern_key : ℚ) := by
        simp [patternCount]
      rw [hc]
      ring

theorem scoreIn_agentScores (st : LearningStore) (key t : String) :
    scoreIn (agentScores st key) t = claimedScore st key t := by
  have h := scoreIn_logFold st key t st.learning_log []
  simpa [agentScores, claimedScore, scoreIn, alistGet] using h

theorem alistSet_cons_self {α : Type} (k : String) (v v₀ : α) (rest : List (String × α)) :
    alistSet ((k, v₀) :: rest) k v = (k, v) :: rest := by
  simp [alistSet]

theorem alistSet_cons_ne {α : Type} (k₀ : String) (v₀ : α) (rest : List (String × α))
    (k : String) (v : α) (h : k₀ ≠ k) :
    alistSet ((k₀, v₀) :: rest) k v = (k₀, v₀) :: alistSet rest k v := by
  simp [alistSet, h]

theorem mem_keys_alistSet {α : Type} (l : List (String × α)) (k : String) (v : α)
    (x : String) :
    x ∈ (alistSet l k v).map Prod.fst → x ∈ l.map Prod.fst ∨ x = k := by
  induction l with
  | nil => simp [alistSet]
  | cons p rest ih =>
    obtain ⟨k₀, v₀⟩ := p
    by_cases h : k₀ = k
    · subst h
      rw [alistSet_cons_self]
      simp only [List.map_cons, List.mem_cons]
      rintro (rfl | hx)
      · exact Or.inr rfl
      · exact Or.inl (Or.inr hx)
    · rw [alistSet_cons_ne k₀ v₀ rest k v h]
      simp only [List.map_cons, List.mem_cons]
      rintro (rfl | hx)
      · exact Or.inl (Or.inl rfl)
      · rcases ih hx with hm | hx2
        · exact Or.inl (Or.inr hm)
        · exact Or.inr hx2

theorem keys_nodup_alistSet {α : Type} (l : List (String × α)) (k : String) (v : α)
    (h : (l.map Prod.fst).Nodup) : ((alistSet l k v).map Prod.fst).Nodup := by
  induction l with
  | nil => simp [alistSet]
  | cons p rest ih =>
    obtain ⟨k₀, v₀⟩ := p
    simp only [List.map_cons, List.nodup_cons] at h
    by_cases hk : k₀ = k
    · subst hk
      rw [alistSet_cons_self]
      simp only [List.map_cons, List.nodup_cons]
      exact h
    · rw [alistSet_cons_ne k₀ v₀ rest k v hk]
      simp only [List.map_cons, List.nodup_cons]
      refine ⟨fun hx => ?_, ih h.2⟩
      rcases mem_keys_alistSet rest k v k₀ hx with hm | hx2
      · exact h.1 hm
      · exact hk hx2

theorem keys_nodup_innerFold (w : ℚ) :
    ∀ (l : List String) (acc : List (String × ℚ)),
      (acc.map Prod.fst).Nodup →
      ((l.foldl (fun a u => alistAdd a u w) acc).map Prod.fst).Nodup := by
  intro l
  induction l with
  | nil => intro acc h; exact h
  | cons u rest ih =>
    intro acc h
    exact ih _ (keys_nodup_alistSet acc u _ h)

theorem keys_nodup_scoreStep (st : LearningStore) (key : String)
    (acc : List (String × ℚ)) (le : LogEntry) (h : (acc.map Prod.fst).Nodup) :
    ((scoreStep st key acc le).map Prod.fst).Nodup := by
  rcases find?_similarPatternsList key st.patterns le.pattern_key with ⟨hf, -⟩ | ⟨hf, -⟩
  · rwa [scoreStep_of_none st key acc le hf]
  · rw [scoreStep_of_some st key acc le _ hf]
    exact keys_nodup_innerFold _ le.agents_spawned acc h

theorem agentScores_keys_nodup (st : LearningStore) (key : String) :
    ((agentScores st key).map Prod.fst).Nodup := by
  rw [agentScores]
  have hgen : ∀ (log : List LogEntry) (acc : List (String × ℚ)),
      (acc.map Prod.fst).Nodup → ((log.foldl (scoreStep st key) acc).map Prod.fst).Nodup := by
    intro log
    induction log with
    | nil => intro acc h; exact h
    | cons le rest ih =>
      intro acc h
      exact ih _ (keys_nodup_scoreStep st key acc le h)
  exact hgen st.learning_log [] (by simp)

theorem mem_alist_eq (l : List (String × ℚ)) (h : (l.map Prod.fst).Nodup)
    (t : String) (s : ℚ) (hm : (t, s) ∈ l) : alistGet l t = some s := by
  induction l with
  | nil => cases hm
  | cons p rest ih =>
    obtain ⟨k₀, v₀⟩ := p
    simp only [List.map_cons, List.nodup_cons] at h
    rcases List.mem_cons.mp hm with heq | hm'
    · injection heq with h1 h2
      subst h1
      subst h2
      simp [alistGet, List.find?]
    · have hk : k₀ ≠ t := by
        rintro rfl
        exact h.1 (List.mem_map.mpr ⟨(k₀, s), hm', rfl⟩)
      rw [alistGet_cons_ne k₀ v₀ rest t hk]
      exact ih h.2 hm'

/-- C8: `get_recommended_agents` returns at most 3 agent types, ordered by
descending accumulated score, where an agent type's score sums
`occurrence_count * similarity * outcome_weight` (weight 1.0/0.5/0.0 for
success/partial/failure) over the logged events whose stored pattern
cleared the `> 0.5` Jaccard similarity threshold — stored patterns with
similarity `≤ 0.5` are discarded — and it returns the empty sequence when
no stored pattern clears the threshold. -/
theorem get_recommended_agents_ranked (st : LearningStore) (ev : Event) :
    (get_recommended_agents st ev).1.length ≤ 3
    ∧ (get_recommended_agents st ev).1.Pairwise
        (fun a b => claimedScore st (extract_pattern_key ev) b
          ≤ claimedScore st (extract_pattern_key ev) a)
    ∧ ((∀ p ∈ st.patterns, pattern_similarity (extract_pattern_key ev) p.1 ≤ 1/2) →
        (get_recommended_agents st ev).1 = []) := by
  refine ⟨?_, ?_, ?_⟩
  · simp only [get_recommended_agents, List.length_map, List.length_take]
    exact min_le_left _ _
  · have hsorted : ((agentScores st (extract_pattern_key ev)).insertionSort
        scoreGE).Pairwise scoreGE := List.sorted_insertionSort scoreGE _
    have hvals : ∀ q ∈ (agentScores st (extract_pattern_key ev)).insertionSort scoreGE,
        q.2 = claimedScore st (extract_pattern_key ev) q.1 := by
      intro q hq
      have hq2 : q ∈ agentScores st (extract_pattern_key ev) :=
        (List.perm_insertionSort scoreGE _).mem_iff.mp hq
      obtain ⟨t, sc⟩ := q
      have hget := mem_alist_eq _ (agentScores_keys_nodup st (extract_pattern_key ev))
        t sc hq2
      have hscore : scoreIn (agentScores st (extract_pattern_key ev)) t = sc := by
        simp [scoreIn, hget]
      rw [← hscore]
      exact scoreIn_agentScores st (extract_pattern_key ev) t
    have htake : (((agentScores st (extract_pattern_key ev)).insertionSort
        scoreGE).take 3).Pairwise
        (fun a b => claimedScore st (extract_pattern_key ev) b.1
          ≤ claimedScore st (extract_pattern_key ev) a.1) := by
      refine List.Pairwise.sublist (List.take_sublist 3 _) ?_
      refine hsorted.imp_of_mem ?_
      intro a b ha hb hab
      rw [← hvals a ha, ← hvals b hb]
      exact hab
    rw [get_recommended_agents]
    exact (List.pairwise_map).mpr htake
  · intro h
    have hsim : similarPatternsList st.patterns (extract_pattern_key ev) = [] := by
      rw [similarPatternsList, List.filterMap_eq_nil_iff]
      intro p hp
      rw [if_neg (not_lt.mpr (h p hp))]
    have hscores : agentScores st (extract_pattern_key ev) = [] := by
      rw [agentScores]
      have hstep : ∀ (log : List LogEntry) (acc : List (String × ℚ)),
          log.foldl (scoreStep st (extract_pattern_key ev)) acc = acc := by
        intro log
        induction log with
        | nil => intro acc; rfl
        | cons le rest ih =>
          intro acc
          rw [List.foldl_cons,
            scoreStep_of_none st (extract_pattern_key ev) acc le (by rw [hsim]; rfl)]
          exact ih acc
      exact hstep st.learning_log []
    simp [get_recommended_agents, hscores]

/-- A concrete event for the C8 witness. -/
def recWitnessEvent : Event :=
  { files := ["pages/home.html"], message := "tidy markup", errors := [] }

theorem get_recommended_agents_ranked_witness :
    (get_recommended_agents initStore recWitnessEvent).1 = [] :=
  (get_recommended_agents_ranked initStore recWitnessEvent).2.2
    (by intro p hp; simp [initStore] at hp)

end Dialectic
